import Mathlib

/-!
Verification of the TAM terminal-activity core: a shallow embedding of the
process classifier (claudeDetector / config.ts segment), the activity record
store (activityTracker.ts) and the cross-window synchronizer (treeView.ts
WindowManager), with theorems checking the natural-language specification.

Machine integers of the source (epoch milliseconds, pids, counters) are
modelled as Nat; JS floating CPU percentages are modelled as rationals
(only order comparisons are performed on them); JS Maps are modelled as
association lists with in-place replacement, and JS regular expressions are
modelled character-by-character over a List Char.
-/

namespace TAM

-- ── Constants (config.ts) ────────────────────────────────────────

def CPU_GENERATING_THRESHOLD : ℚ := 5

def APPROVAL_TIMEOUT_MS : Nat := 30000

def STALE_WINDOW_THRESHOLD_MS : Nat := 60000

def activityKeyHead : String := "activity:"

-- ── Data model (types.ts) ────────────────────────────────────────

inductive ClaudeState where
  | noneSt
  | idle
  | generating
  | approval
deriving DecidableEq, Repr

structure ProcessInfo where
  pid : Nat
  ppid : Nat
  cpu : ℚ
  rss : Nat
  etime : List Char
  command : List Char
deriving DecidableEq, Repr

-- ── Character-level embedding of the JS regexes (config.ts isClaudeProcess) ──

/-- JS regex word character class, as used by word boundaries. -/
def isWordChar (c : Char) : Bool := c.isAlphanum || c == '_'

/-- JS regex whitespace class (the subset relevant to command lines). -/
def isSpaceChar (c : Char) : Bool := c == ' ' || c == '\t' || c == '\n' || c == '\r'

/-- The word w occurs in s starting at index i. -/
def matchesAt (s w : List Char) (i : Nat) : Bool :=
  (s.drop i).take w.length == w

/-- Embedding of the test of a JS regex of shape \bw\b against s:
some occurrence of w is delimited by word boundaries on both sides. -/
def wordOccurs (w s : List Char) : Bool :=
  (List.range (s.length + 1)).any fun i =>
    matchesAt s w i &&
    (i == 0 || !isWordChar (s.getD (i - 1) ' ')) &&
    (i + w.length == s.length || !isWordChar (s.getD (i + w.length) ' '))

def claudeWord : List Char := "claude".data

/-- Embedding of the test of the JS regex (?:^|\/)claude(?:\s|$): the word
"claude" occurs either at the start or right after a slash, and is followed
by whitespace or the end of the string. -/
def claudeTokenOccurs (s : List Char) : Bool :=
  (List.range (s.length + 1)).any fun i =>
    matchesAt s claudeWord i &&
    (i == 0 || s.getD (i - 1) ' ' == '/') &&
    (i + claudeWord.length == s.length || isSpaceChar (s.getD (i + claudeWord.length) ' '))

def dotClaudeSlash : List Char := ".claude/".data

/-- The search/listing tool names rejected by isClaudeProcess,
in the order they appear in the source regex. -/
def searchToolWords : List (List Char) :=
  ["grep".data, "rg".data, "ag".data, "find".data, "ls".data, "cat".data,
   "head".data, "tail".data]

/-- Embedding of the test of JS String.includes: w occurs contiguously in s. -/
def containsSub (w s : List Char) : Bool :=
  (List.range (s.length + 1)).any fun i => matchesAt s w i

/-- Embedding of isClaudeProcess (config.ts): lowercase the command line,
reject any command referencing a .claude/ directory, reject search/listing
tool invocations, then accept exactly the commands matched by
(?:^|\/)claude(?:\s|$). -/
def isClaudeProcess (command : List Char) : Bool :=
  let lower := command.map Char.toLower
  if containsSub dotClaudeSlash lower then false
  else if searchToolWords.any (fun w => wordOccurs w lower) then false
  else claudeTokenOccurs lower

def skipSwitch : List Char := "--dangerously-skip-permissions".data

/-- Embedding of command.includes("--dangerously-skip-permissions"). -/
def skipPermissionsFlag (command : List Char) : Bool :=
  containsSub skipSwitch command

-- ── Association-list model of the JS Maps ────────────────────────

/-- Map.set: replace the binding in place if the key is present, else append. -/
def setA {A : Type} (l : List (Nat × A)) (k : Nat) (v : A) : List (Nat × A) :=
  match l with
  | [] => [(k, v)]
  | (k1, v1) :: rest => if k1 = k then (k, v) :: rest else (k1, v1) :: setA rest k v

/-- Map.delete. -/
def eraseA {A : Type} (l : List (Nat × A)) (k : Nat) : List (Nat × A) :=
  l.filter (fun e => e.1 != k)

-- ── Process snapshot derived maps (detectClaudeStates prologue) ──

/-- The parent-to-children map built by detectClaudeStates: the children of q
are the pids of the samples whose ppid is q, in sample order. -/
def childrenOfPs (ps : List ProcessInfo) : Nat → List Nat :=
  fun q => (ps.filter (fun p => p.ppid == q)).map (fun p => p.pid)

/-- The pid-to-process map built by detectClaudeStates; a later sample with
the same pid overwrites an earlier one, as Map.set does. -/
def procOfPs (ps : List ProcessInfo) : Nat → Option ProcessInfo :=
  fun q => ps.reverse.find? (fun p => p.pid == q)

-- ── findClaudeDescendant (recursive walk from config.ts) ─────────

/-- The loop of findClaudeDescendant over a child list: test each child, and
between a child and its right siblings descend into the child first; f is
the recursive call one level deeper. -/
def findDescList (f : Nat → Option ProcessInfo) (procOf : Nat → Option ProcessInfo) :
    List Nat → Option ProcessInfo
  | [] => Option.none
  | c :: rest =>
    match procOf c with
    | Option.some p =>
      if isClaudeProcess p.command then Option.some p
      else
        match f c with
        | Option.some q => Option.some q
        | Option.none => findDescList f procOf rest
    | Option.none =>
      match f c with
      | Option.some q => Option.some q
      | Option.none => findDescList f procOf rest

/-- Embedding of findClaudeDescendant: the fuel bounds the recursion depth;
the caller passes one more than the number of samples, which no acyclic
parent relation over those samples can exhaust. -/
def findDesc (children : Nat → List Nat) (procOf : Nat → Option ProcessInfo) :
    Nat → Nat → Option ProcessInfo
  | 0, _ => Option.none
  | Nat.succ fuel, pid =>
    findDescList (findDesc children procOf fuel) procOf (children pid)

-- ── countDescendants (config.ts) ─────────────────────────────────

def mcpPat : List Char := ".claude/mcp-servers/".data

/-- Embedding of the JS regex \.claude\/mcp-servers\/([^/]+)\/ applied at
one start index: the fixed pattern, then a nonempty capture of non-slash
characters, then a closing slash. -/
def mcpNameAt (cmd : List Char) (i : Nat) : Option (List Char) :=
  if matchesAt cmd mcpPat i then
    let rest := cmd.drop (i + mcpPat.length)
    let name := rest.takeWhile (fun c => c != '/')
    if name.length != 0 && name.length < rest.length then Option.some name
    else Option.none
  else Option.none

/-- Leftmost match of the mcp-servers pattern in a command line. -/
def extractMcpName (cmd : List Char) : Option (List Char) :=
  (List.range cmd.length).findSome? (fun i => mcpNameAt cmd i)

/-- The loop of countDescendants over a child list: count the child, record
its mcp server name when new (first-seen order, deduplicated), descend via f,
then continue with the right siblings. -/
def countWalkList (f : Nat → Nat × List (List Char) → Nat × List (List Char))
    (procOf : Nat → Option ProcessInfo) :
    List Nat → Nat × List (List Char) → Nat × List (List Char)
  | [], acc => acc
  | c :: rest, acc =>
    let ms := match procOf c with
      | Option.some p =>
        match extractMcpName p.command with
        | Option.some name => if acc.2.contains name then acc.2 else acc.2 ++ [name]
        | Option.none => acc.2
      | Option.none => acc.2
    countWalkList f procOf rest (f c (acc.1 + 1, ms))

/-- Embedding of the walk closure of countDescendants, with the same fuel
discipline as findDesc. The accumulator carries (count, mcpServers). -/
def countWalk (children : Nat → List Nat) (procOf : Nat → Option ProcessInfo) :
    Nat → Nat → Nat × List (List Char) → Nat × List (List Char)
  | 0, _, acc => acc
  | Nat.succ fuel, pid, acc =>
    countWalkList (countWalk children procOf fuel) procOf (children pid) acc

-- ── Classifier state automaton (detectClaudeStates body) ─────────

/-- ClassifierState memory for one root: the previous state and its start. -/
structure Mem where
  state : ClaudeState
  since : Nat
deriving DecidableEq, Repr

/-- The diagnostics record built for a matched descendant. -/
structure ClaudeInfo where
  pid : Nat
  etime : List Char
  skipPermissions : Bool
  cpu : ℚ
  rss : Nat
  mcpServers : List (List Char)
  childProcessCount : Nat
deriving DecidableEq, Repr

structure ClaudeDetectResult where
  state : ClaudeState
  info : Option ClaudeInfo
deriving DecidableEq, Repr

/-- One evaluation of the state automaton for a matched root: from the
descendant CPU, the previous memory and the clock, the new state and the
memory entry that remains stored for the root afterwards. The branches are
those of detectClaudeStates in order; a branch of the source that leaves the
Map entry untouched returns the previous entry unchanged here. -/
def stepRoot (cpu : ℚ) (prev : Option Mem) (now : Nat) : ClaudeState × Mem :=
  if cpu > CPU_GENERATING_THRESHOLD then
    (ClaudeState.generating, ⟨ClaudeState.generating, now⟩)
  else
    match prev with
    | Option.some m =>
      if m.state = ClaudeState.generating then
        (ClaudeState.approval, ⟨ClaudeState.approval, now⟩)
      else if m.state = ClaudeState.approval then
        if now - m.since > APPROVAL_TIMEOUT_MS then
          (ClaudeState.idle, ⟨ClaudeState.idle, now⟩)
        else (ClaudeState.approval, m)
      else if m.state = ClaudeState.idle then (ClaudeState.idle, m)
      else (ClaudeState.idle, ⟨ClaudeState.idle, now⟩)
    | Option.none => (ClaudeState.idle, ⟨ClaudeState.idle, now⟩)

/-- The ClaudeInfo built for a matched descendant. -/
def buildInfo (claudeProc : ProcessInfo) (children : Nat → List Nat)
    (procOf : Nat → Option ProcessInfo) (fuel : Nat) : ClaudeInfo :=
  let r := countWalk children procOf fuel claudeProc.pid (0, [])
  ⟨claudeProc.pid, claudeProc.etime, skipPermissionsFlag claudeProc.command,
   claudeProc.cpu, claudeProc.rss, r.2, r.1⟩

/-- The loop body of detectClaudeStates for one requested root pid, threading
the (result map, classifier memory) pair. -/
def detectStep (ps : List ProcessInfo) (now : Nat)
    (acc : List (Nat × ClaudeDetectResult) × List (Nat × Mem)) (termPid : Nat) :
    List (Nat × ClaudeDetectResult) × List (Nat × Mem) :=
  let children := childrenOfPs ps
  let procOf := procOfPs ps
  let fuel := ps.length + 1
  match findDesc children procOf fuel termPid with
  | Option.none =>
    (setA acc.1 termPid ⟨ClaudeState.noneSt, Option.none⟩, eraseA acc.2 termPid)
  | Option.some claudeProc =>
    let sm := stepRoot claudeProc.cpu (List.lookup termPid acc.2) now
    (setA acc.1 termPid ⟨sm.1, Option.some (buildInfo claudeProc children procOf fuel)⟩,
     setA acc.2 termPid sm.2)

/-- Embedding of detectClaudeStates. The external ps query is an input:
Option.none models the query throwing (timeout or non-zero exit), in which
case every requested root maps to state noneSt with no diagnostics and the
classifier memory is untouched. -/
def detectClaudeStates (terminalPids : List Nat) (psOpt : Option (List ProcessInfo))
    (now : Nat) (prev0 : List (Nat × Mem)) :
    List (Nat × ClaudeDetectResult) × List (Nat × Mem) :=
  match psOpt with
  | Option.none =>
    (terminalPids.foldl (fun res pid => setA res pid ⟨ClaudeState.noneSt, Option.none⟩) [],
     prev0)
  | Option.some ps =>
    terminalPids.foldl (detectStep ps now) ([], prev0)

-- ── Traversal orders (for the descendant-search claims) ──────────

/-- The child-list part of the preorder listing; f lists the subtree below
one child. -/
def dfsOrderList (f : Nat → List Nat) : List Nat → List Nat
  | [] => []
  | c :: rest => c :: (f c ++ dfsOrderList f rest)

/-- The strict descendants of a pid in the order the recursive
findClaudeDescendant walk visits them: each child first, then the child
subtree, then the right siblings (a depth-first preorder). -/
def dfsOrder (children : Nat → List Nat) : Nat → Nat → List Nat
  | 0, _ => []
  | Nat.succ fuel, pid => dfsOrderList (dfsOrder children fuel) (children pid)

/-- The first process along a pid list whose command line matches the
monitored-program signature. -/
def firstMatchIn (procOf : Nat → Option ProcessInfo) : List Nat → Option ProcessInfo
  | [] => Option.none
  | c :: rest =>
    match procOf c with
    | Option.some p => if isClaudeProcess p.command then Option.some p else firstMatchIn procOf rest
    | Option.none => firstMatchIn procOf rest

/-- Modelled from the spec: the breadth-first (level-order) search over the
parent-to-children relation that the specification describes for locating
the monitored descendant, with an explicit queue; children are appended at
the tail of the queue, so all pids of one level are tested before any pid of
the next level. -/
def bfsFirstMatch (children : Nat → List Nat) (procOf : Nat → Option ProcessInfo) :
    Nat → List Nat → Option ProcessInfo
  | 0, _ => Option.none
  | _, [] => Option.none
  | Nat.succ fuel, c :: rest =>
    match procOf c with
    | Option.some p =>
      if isClaudeProcess p.command then Option.some p
      else bfsFirstMatch children procOf fuel (rest ++ children c)
    | Option.none => bfsFirstMatch children procOf fuel (rest ++ children c)

-- ── Activity record store (activityTracker.ts) ───────────────────

/-- A local activity record (types.ts ActivityRecord). -/
structure ActivityRecord where
  id : String
  name : String
  displayName : Option String
  displayNameIsCustom : Option Bool
  processId : Option Nat
  lastActivity : Nat
  createdAt : Nat
  windowId : String
  windowName : String
  isLocal : Bool
  claudeState : Option ClaudeState
  claudeInfo : Option ClaudeInfo
deriving DecidableEq, Repr

/-- One serialized terminal of a WindowState (the non-volatile subset
written by persistToGlobalState). -/
structure PersistedTerminal where
  id : String
  name : String
  displayName : Option String
  displayNameIsCustom : Option Bool
  processId : Option Nat
  lastActivity : Nat
  createdAt : Nat
  windowId : String
  windowName : String
deriving DecidableEq, Repr

/-- One OwnerSnapshot record in the shared store (types.ts WindowState). -/
structure WindowStateRec where
  windowId : String
  windowName : String
  lastUpdated : Nat
  terminals : List PersistedTerminal
deriving DecidableEq, Repr

/-- The mutable state of an ActivityTracker: records keyed by creation index,
the creation counter, the terminal-handle-to-index map (handles are opaque
tokens here), and the not-yet-consumed persisted terminals loaded from the
shared store at startup. -/
structure TrackerState where
  records : List (Nat × ActivityRecord)
  creationIndex : Nat
  terminalIndexMap : List (Nat × Nat)
  persisted : List PersistedTerminal
  windowId : String
  windowName : String
deriving Repr

/-- Embedding of findPersistedMatch: locate the first not-yet-consumed
persisted terminal with the given raw name and remove it from the list
(findIndex followed by splice). -/
def findPersistedMatch (name : String) :
    List PersistedTerminal → Option PersistedTerminal × List PersistedTerminal
  | [] => (Option.none, [])
  | t :: rest =>
    if t.name == name then (Option.some t, rest)
    else
      let r := findPersistedMatch name rest
      (r.1, t :: r.2)

/-- Embedding of registerTerminal (the synchronous part; the asynchronous
process-id resolution is a later event and is not part of registration).
h is the opaque terminal handle, name its raw name, now the clock. -/
def registerTerminal (h : Nat) (name : String) (now : Nat) (st : TrackerState) :
    TrackerState :=
  let idx := st.creationIndex
  let r := findPersistedMatch name st.persisted
  let rec1 : ActivityRecord :=
    ⟨st.windowId ++ ":" ++ toString idx,
     name,
     (r.1.bind (fun p => p.displayName)),
     (r.1.bind (fun p => p.displayNameIsCustom)),
     Option.none,
     (match r.1 with | Option.some p => p.lastActivity | Option.none => now),
     (match r.1 with | Option.some p => p.createdAt | Option.none => now),
     st.windowId, st.windowName, true, Option.none, Option.none⟩
  ⟨setA st.records idx rec1, idx + 1, setA st.terminalIndexMap h idx, r.2,
   st.windowId, st.windowName⟩

/-- Embedding of unregisterTerminal: delete the record and the handle entry. -/
def unregisterTerminal (h : Nat) (st : TrackerState) : TrackerState :=
  match List.lookup h st.terminalIndexMap with
  | Option.some idx =>
    ⟨eraseA st.records idx, st.creationIndex, eraseA st.terminalIndexMap h,
     st.persisted, st.windowId, st.windowName⟩
  | Option.none => st

/-- Embedding of touch: set lastActivity to now and refresh the raw name,
when the handle is known and its record exists. -/
def touchTerminal (h : Nat) (name : String) (now : Nat) (st : TrackerState) :
    TrackerState :=
  match List.lookup h st.terminalIndexMap with
  | Option.some idx =>
    match List.lookup idx st.records with
    | Option.some r =>
      ⟨setA st.records idx
        ⟨r.id, name, r.displayName, r.displayNameIsCustom, r.processId, now,
         r.createdAt, r.windowId, r.windowName, r.isLocal, r.claudeState, r.claudeInfo⟩,
       st.creationIndex, st.terminalIndexMap, st.persisted, st.windowId, st.windowName⟩
    | Option.none => st
  | Option.none => st

/-- The value stored by setDisplayName: the JS expression
displayName || undefined collapses the empty string to undefined. -/
def normName (d : Option String) : Option String :=
  match d with
  | Option.some s => if s = "" then Option.none else Option.some s
  | Option.none => Option.none

/-- The flag stored by setDisplayName: !!displayName. -/
def normFlag (d : Option String) : Bool :=
  match d with
  | Option.some s => !(s == "")
  | Option.none => false

/-- The outcome of setDisplayName: the records after the call, whether the
local state was persisted to the shared store, and whether the change
notification fired (the source does both inside fireChange, so the two
flags always coincide). -/
structure SetNameOutcome where
  records : List (Nat × ActivityRecord)
  persisted : Bool
  notified : Bool
deriving Repr

/-- Embedding of setDisplayName: scan the records in insertion order, update
the first one whose stable id matches and fire the change, otherwise fall
through without any effect. -/
def setDisplayNameFn (recordId : String) (d : Option String) :
    List (Nat × ActivityRecord) → SetNameOutcome
  | [] => ⟨[], false, false⟩
  | (k, r) :: rest =>
    if r.id == recordId then
      ⟨(k, ⟨r.id, r.name, normName d, Option.some (normFlag d), r.processId,
            r.lastActivity, r.createdAt, r.windowId, r.windowName, r.isLocal,
            r.claudeState, r.claudeInfo⟩) :: rest, true, true⟩
    else
      let res := setDisplayNameFn recordId d rest
      ⟨(k, r) :: res.records, res.persisted, res.notified⟩

-- ── Traces of store operations (for the monotonicity claim) ──────

/-- The store mutations that can touch a record, as delivered by the host
event loop (single-threaded, so a trace is a list). -/
inductive TrackerOp where
  | register (h : Nat) (name : String) (now : Nat)
  | unregister (h : Nat)
  | touch (h : Nat) (name : String) (now : Nat)
  | setName (id : String) (d : Option String)
deriving DecidableEq, Repr

def applyOp (st : TrackerState) (op : TrackerOp) : TrackerState :=
  match op with
  | TrackerOp.register h name now => registerTerminal h name now st
  | TrackerOp.unregister h => unregisterTerminal h st
  | TrackerOp.touch h name now => touchTerminal h name now st
  | TrackerOp.setName id d =>
    ⟨(setDisplayNameFn id d st.records).records, st.creationIndex,
     st.terminalIndexMap, st.persisted, st.windowId, st.windowName⟩

def runOps (st : TrackerState) (ops : List TrackerOp) : TrackerState :=
  ops.foldl applyOp st

/-- The record currently backing a terminal handle. -/
def recordOfHandle (st : TrackerState) (h : Nat) : Option ActivityRecord :=
  (List.lookup h st.terminalIndexMap).bind (fun idx => List.lookup idx st.records)

/-- The clock value an operation carries, when it reads the clock. -/
def opTime (op : TrackerOp) : Option Nat :=
  match op with
  | TrackerOp.register _ _ now => Option.some now
  | TrackerOp.touch _ _ now => Option.some now
  | _ => Option.none

def timeLeB (a b : Option Nat) : Bool :=
  match a, b with
  | Option.some x, Option.some y => x ≤ y
  | _, _ => true

/-- The clock is monotone along a trace: any operation reads a clock value
no smaller than any earlier operation's. -/
def timesMonotone (ops : List TrackerOp) : Prop :=
  ∀ i, ∀ _ : i < ops.length, ∀ j, ∀ _ : j < ops.length, i ≤ j →
    timeLeB (opTime (ops.getD i (TrackerOp.unregister 0)))
            (opTime (ops.getD j (TrackerOp.unregister 0))) = true

instance timesMonotoneDec (ops : List TrackerOp) : Decidable (timesMonotone ops) := by
  unfold timesMonotone
  infer_instance

-- ── Cross-window synchronizer (treeView.ts WindowManager) ────────

/-- Embedding of String.startsWith, character-based so that it evaluates. -/
def strStarts (head s : String) : Bool := s.data.take head.data.length == head.data

/-- A remote terminal as merged by poll: the spread of the persisted summary
with isLocal set to false (volatile fields absent). -/
def toRemoteRecord (t : PersistedTerminal) : ActivityRecord :=
  ⟨t.id, t.name, t.displayName, t.displayNameIsCustom, t.processId,
   t.lastActivity, t.createdAt, t.windowId, t.windowName, false,
   Option.none, Option.none⟩

/-- The loop of poll over the shared store (keys in store order): keep keys
outside the activity namespace and own snapshots, delete snapshots whose age
strictly exceeds the staleness threshold, and merge the terminals of the
remaining foreign snapshots. Returns the store after the deletions and the
merged remote view. -/
def pollLoop (selfId : String) (now : Nat) :
    List (String × WindowStateRec) → List (String × WindowStateRec) × List ActivityRecord
  | [] => ([], [])
  | (k, s) :: rest =>
    if !(strStarts activityKeyHead k) then
      let r := pollLoop selfId now rest
      ((k, s) :: r.1, r.2)
    else if s.windowId == selfId then
      let r := pollLoop selfId now rest
      ((k, s) :: r.1, r.2)
    else if now - s.lastUpdated > STALE_WINDOW_THRESHOLD_MS then
      pollLoop selfId now rest
    else
      let r := pollLoop selfId now rest
      ((k, s) :: r.1, s.terminals.map toRemoteRecord ++ r.2)

/-- Embedding of the change test of poll: length difference, or a positional
difference in stable id or lastActivity. -/
def viewChanged (newR old : List ActivityRecord) : Bool :=
  newR.length != old.length ||
  (List.range newR.length).any (fun i =>
    match newR.get? i, old.get? i with
    | Option.some t, Option.some o => t.id != o.id || t.lastActivity != o.lastActivity
    | Option.some _, Option.none => true
    | _, _ => false)

/-- Embedding of one WindowManager.poll tick: the store after stale-snapshot
deletion, the merged remote view, and whether the change event fires. -/
def pollOnce (selfId : String) (now : Nat) (store : List (String × WindowStateRec))
    (prevRemote : List ActivityRecord) :
    List (String × WindowStateRec) × List ActivityRecord × Bool :=
  let r := pollLoop selfId now store
  (r.1, r.2, viewChanged r.2 prevRemote)

/-- globalState.update key undefined: remove the key from the shared store
(a no-op when the key is absent). -/
def deleteKey (k : String) (store : List (String × WindowStateRec)) :
    List (String × WindowStateRec) :=
  store.filter (fun e => e.1 != k)

/-- Declarative form of the retention test of poll: an entry stays in the
store when it is outside the activity namespace, or is the reader's own, or
is not strictly older than the staleness threshold. -/
def pollKeep (selfId : String) (now : Nat) (e : String × WindowStateRec) : Bool :=
  !(strStarts activityKeyHead e.1) || e.2.windowId == selfId ||
    !(decide (now - e.2.lastUpdated > STALE_WINDOW_THRESHOLD_MS))

/-- Declarative form of the merge test of poll: an entry contributes its
terminals to the merged remote view when it is in the activity namespace,
foreign, and not strictly older than the staleness threshold. -/
def pollLive (selfId : String) (now : Nat) (e : String × WindowStateRec) : Bool :=
  strStarts activityKeyHead e.1 && e.2.windowId != selfId &&
    decide (now - e.2.lastUpdated ≤ STALE_WINDOW_THRESHOLD_MS)

-- ─────────────────────────────────────────────────────────────────
-- Theorems
-- ─────────────────────────────────────────────────────────────────

-- ── Association-list lemmas ──────────────────────────────────────

theorem lookup_setA_self {A : Type} (l : List (Nat × A)) (k : Nat) (v : A) :
    List.lookup k (setA l k v) = Option.some v := by
  induction l with
  | nil => simp [setA, List.lookup]
  | cons e rest ih =>
    obtain ⟨k1, v1⟩ := e
    by_cases h : k1 = k
    · subst h
      simp [setA, List.lookup]
    · cases hkk : (k == k1) with
      | true => exact absurd (eq_of_beq hkk).symm h
      | false => simp [setA, h, List.lookup, hkk, ih]

theorem lookup_setA_ne {A : Type} (l : List (Nat × A)) (k k1 : Nat) (v : A)
    (h : k1 ≠ k) : List.lookup k1 (setA l k v) = List.lookup k1 l := by
  induction l with
  | nil =>
    cases hkk : (k1 == k) with
    | true => exact absurd (eq_of_beq hkk) h
    | false => simp [setA, List.lookup, hkk]
  | cons e rest ih =>
    obtain ⟨k2, v2⟩ := e
    by_cases h2 : k2 = k
    · subst h2
      cases hkk : (k1 == k2) with
      | true => exact absurd (eq_of_beq hkk) h
      | false => simp [setA, List.lookup, hkk]
    · simp [setA, h2, List.lookup, ih]

theorem lookup_eraseA_self {A : Type} (l : List (Nat × A)) (k : Nat) :
    List.lookup k (eraseA l k) = Option.none := by
  induction l with
  | nil => simp [eraseA, List.lookup]
  | cons e rest ih =>
    obtain ⟨k1, v1⟩ := e
    by_cases h : k1 = k
    · subst h
      simpa [eraseA, List.lookup] using ih
    · cases hkk : (k == k1) with
      | true => exact absurd (eq_of_beq hkk).symm h
      | false =>
        simp only [eraseA, List.filter]
        have hne : (k1 != k) = true := by simpa using h
        simp only [hne, List.lookup, hkk]
        simpa [eraseA] using ih

theorem lookup_eraseA_ne {A : Type} (l : List (Nat × A)) (k k1 : Nat)
    (h : k1 ≠ k) : List.lookup k1 (eraseA l k) = List.lookup k1 l := by
  induction l with
  | nil => simp [eraseA, List.lookup]
  | cons e rest ih =>
    obtain ⟨k2, v2⟩ := e
    by_cases h2 : k2 = k
    · subst h2
      have hkk : (k1 == k2) = false := by simpa using h
      simp only [eraseA, List.filter, bne_self_eq_false, List.lookup, hkk]
      simpa [eraseA] using ih
    · have hne : (k2 != k) = true := by simpa using h2
      simp only [eraseA, List.filter, hne, List.lookup]
      cases hkk : (k1 == k2) with
      | true => rfl
      | false => simpa [eraseA] using ih

-- ── C6: whole-tick failure of the process-table query ────────────

theorem foldl_setA_const_lookup (v : ClaudeDetectResult) :
    ∀ (l : List Nat) (acc : List (Nat × ClaudeDetectResult)) (pid : Nat),
      (pid ∈ l ∨ List.lookup pid acc = Option.some v) →
      List.lookup pid (l.foldl (fun res p => setA res p v) acc) = Option.some v := by
  intro l
  induction l with
  | nil =>
    intro acc pid h
    rcases h with h | h
    · cases h
    · simpa using h
  | cons p rest ih =>
    intro acc pid h
    simp only [List.foldl_cons]
    by_cases hp : pid = p
    · subst hp
      exact ih _ _ (Or.inr (lookup_setA_self acc pid v))
    · rcases h with h | h
      · rcases List.mem_cons.mp h with h1 | h1
        · exact absurd h1 hp
        · exact ih _ _ (Or.inl h1)
      · exact ih _ _ (Or.inr ((lookup_setA_ne acc p pid v hp).trans h))

/-- C6: when the process-table query fails (modelled by the Option.none
snapshot), every requested root pid classifies as state noneSt with no
diagnostics attached, and the classifier memory is left untouched — the
failure is whole-tick, never partial. -/
theorem detect_query_failure_whole_tick (terminalPids : List Nat) (now : Nat)
    (prev : List (Nat × Mem)) (pid : Nat) (hmem : pid ∈ terminalPids) :
    List.lookup pid (detectClaudeStates terminalPids Option.none now prev).1
      = Option.some ⟨ClaudeState.noneSt, Option.none⟩ ∧
    (detectClaudeStates terminalPids Option.none now prev).2 = prev := by
  constructor
  · exact foldl_setA_const_lookup _ terminalPids [] pid (Or.inl hmem)
  · rfl

/-- C6 witness: a failed tick for roots 5 and 6 with held memory for 5. -/
theorem detect_query_failure_whole_tick_witness :
    (5 ∈ [5, 6]) ∧
    (List.lookup 5 (detectClaudeStates [5, 6] Option.none 100
        [(5, ⟨ClaudeState.approval, 7⟩)]).1
      = Option.some ⟨ClaudeState.noneSt, Option.none⟩ ∧
     (detectClaudeStates [5, 6] Option.none 100 [(5, ⟨ClaudeState.approval, 7⟩)]).2
      = [(5, ⟨ClaudeState.approval, 7⟩)]) :=
  ⟨by decide,
   detect_query_failure_whole_tick [5, 6] 100 [(5, ⟨ClaudeState.approval, 7⟩)] 5 (by decide)⟩

-- ── C8: memory entry discarded when no descendant matches ────────

theorem detectStep_mem_other (ps : List ProcessInfo) (now : Nat)
    (acc : List (Nat × ClaudeDetectResult) × List (Nat × Mem)) (p r : Nat)
    (h : r ≠ p) :
    List.lookup r (detectStep ps now acc p).2 = List.lookup r acc.2 := by
  cases hf : findDesc (childrenOfPs ps) (procOfPs ps) (ps.length + 1) p with
  | none => simp [detectStep, hf, lookup_eraseA_ne _ _ _ h]
  | some proc => simp [detectStep, hf, lookup_setA_ne _ _ _ _ h]

theorem detectStep_mem_clears (ps : List ProcessInfo) (now : Nat)
    (acc : List (Nat × ClaudeDetectResult) × List (Nat × Mem)) (p : Nat)
    (hf : findDesc (childrenOfPs ps) (procOfPs ps) (ps.length + 1) p = Option.none) :
    List.lookup p (detectStep ps now acc p).2 = Option.none := by
  simp [detectStep, hf, lookup_eraseA_self]

theorem foldl_detectStep_clears (ps : List ProcessInfo) (now : Nat) (r : Nat)
    (hfind : findDesc (childrenOfPs ps) (procOfPs ps) (ps.length + 1) r = Option.none) :
    ∀ (l : List Nat) (acc : List (Nat × ClaudeDetectResult) × List (Nat × Mem)),
      (r ∈ l ∨ List.lookup r acc.2 = Option.none) →
      List.lookup r (l.foldl (detectStep ps now) acc).2 = Option.none := by
  intro l
  induction l with
  | nil =>
    intro acc h
    rcases h with h | h
    · cases h
    · simpa using h
  | cons p rest ih =>
    intro acc h
    simp only [List.foldl_cons]
    by_cases hp : p = r
    · subst hp
      exact ih _ (Or.inr (detectStep_mem_clears ps now acc p hfind))
    · rcases h with h | h
      · rcases List.mem_cons.mp h with h1 | h1
        · exact absurd h1.symm hp
        · exact ih _ (Or.inl h1)
      · exact ih _ (Or.inr ((detectStep_mem_other ps now acc p r (fun hh => hp hh.symm)).trans h))

/-- C8: a classifier tick whose snapshot yields no matching descendant for a
requested root discards that root's ClassifierState memory entry: after the
tick the memory holds nothing for that root. -/
theorem no_match_discards_memory (terminalPids : List Nat) (ps : List ProcessInfo)
    (now : Nat) (prev : List (Nat × Mem)) (r : Nat)
    (hmem : r ∈ terminalPids)
    (hfind : findDesc (childrenOfPs ps) (procOfPs ps) (ps.length + 1) r = Option.none) :
    List.lookup r (detectClaudeStates terminalPids (Option.some ps) now prev).2
      = Option.none := by
  exact foldl_detectStep_clears ps now r hfind terminalPids ([], prev) (Or.inl hmem)

/-- C8 witness: root 7 has no descendant in a one-process snapshot, and its
held memory entry is gone after the tick. -/
theorem no_match_discards_memory_witness :
    (7 ∈ [7]) ∧
    findDesc (childrenOfPs [⟨2, 1, 0, 0, [], "zsh".data⟩])
      (procOfPs [⟨2, 1, 0, 0, [], "zsh".data⟩]) 2 7 = Option.none ∧
    List.lookup 7 (detectClaudeStates [7] (Option.some [⟨2, 1, 0, 0, [], "zsh".data⟩])
      50 [(7, ⟨ClaudeState.idle, 3⟩)]).2 = Option.none :=
  ⟨by decide, by decide,
   no_match_discards_memory [7] [⟨2, 1, 0, 0, [], "zsh".data⟩] 50
     [(7, ⟨ClaudeState.idle, 3⟩)] 7 (by decide) (by decide)⟩

-- ── Frame lemmas: one root's result is untouched by other roots ──

theorem detectStep_res_other (ps : List ProcessInfo) (now : Nat)
    (acc : List (Nat × ClaudeDetectResult) × List (Nat × Mem)) (p r : Nat)
    (h : r ≠ p) :
    List.lookup r (detectStep ps now acc p).1 = List.lookup r acc.1 := by
  cases hf : findDesc (childrenOfPs ps) (procOfPs ps) (ps.length + 1) p with
  | none => simp [detectStep, hf, lookup_setA_ne _ _ _ _ h]
  | some proc => simp [detectStep, hf, lookup_setA_ne _ _ _ _ h]

theorem foldl_detectStep_frame (ps : List ProcessInfo) (now : Nat) (r : Nat) :
    ∀ (l : List Nat) (acc : List (Nat × ClaudeDetectResult) × List (Nat × Mem)),
      r ∉ l →
      List.lookup r (l.foldl (detectStep ps now) acc).1 = List.lookup r acc.1 ∧
      List.lookup r (l.foldl (detectStep ps now) acc).2 = List.lookup r acc.2 := by
  intro l
  induction l with
  | nil =>
    intro acc _
    exact ⟨rfl, rfl⟩
  | cons p rest ih =>
    intro acc h
    have hrp : r ≠ p := fun he => h (he ▸ List.mem_cons_self p rest)
    have hrest : r ∉ rest := fun he => h (List.mem_cons_of_mem _ he)
    simp only [List.foldl_cons]
    obtain ⟨ha, hb⟩ := ih (detectStep ps now acc p) hrest
    exact ⟨ha.trans (detectStep_res_other ps now acc p r hrp),
           hb.trans (detectStep_mem_other ps now acc p r hrp)⟩

/-- A tick over many roots treats each root exactly as a tick over that root
alone: the other requested roots touch only their own keys. -/
theorem detect_multi_root_eq_single (ps : List ProcessInfo) (now : Nat)
    (prev0 : List (Nat × Mem)) (l1 l2 : List Nat) (r : Nat)
    (h1 : r ∉ l1) (h2 : r ∉ l2) :
    List.lookup r (detectClaudeStates (l1 ++ r :: l2) (Option.some ps) now prev0).1
      = List.lookup r (detectClaudeStates [r] (Option.some ps) now prev0).1 ∧
    List.lookup r (detectClaudeStates (l1 ++ r :: l2) (Option.some ps) now prev0).2
      = List.lookup r (detectClaudeStates [r] (Option.some ps) now prev0).2 := by
  have hmid := foldl_detectStep_frame ps now r l1 ([], prev0) h1
  have hsplit : detectClaudeStates (l1 ++ r :: l2) (Option.some ps) now prev0
      = l2.foldl (detectStep ps now)
          (detectStep ps now (l1.foldl (detectStep ps now) ([], prev0)) r) := by
    simp [detectClaudeStates, List.foldl_append]
  have htail := foldl_detectStep_frame ps now r l2
    (detectStep ps now (l1.foldl (detectStep ps now) ([], prev0)) r) h2
  rw [hsplit]
  constructor
  · rw [htail.1]
    cases hf : findDesc (childrenOfPs ps) (procOfPs ps) (ps.length + 1) r with
    | none => simp [detectClaudeStates, detectStep, hf, lookup_setA_self]
    | some proc =>
      simp [detectClaudeStates, detectStep, hf, lookup_setA_self, hmid.2]
  · rw [htail.2]
    cases hf : findDesc (childrenOfPs ps) (procOfPs ps) (ps.length + 1) r with
    | none => simp [detectClaudeStates, detectStep, hf, lookup_eraseA_self]
    | some proc =>
      simp [detectClaudeStates, detectStep, hf, lookup_setA_self, hmid.2]

-- ── C1: approval-timeout decay ───────────────────────────────────

/-- C1 counterexample: with memory {APPROVAL, 0} and a tick at exactly
now = approval-timeout, the elapsed time is at least the timeout, yet the
tick yields state APPROVAL with memory unchanged — not IDLE as the claim
(stated with a non-strict inequality) requires. -/
theorem approval_timeout_boundary_counterexample :
    (30000 : Nat) - 0 ≥ APPROVAL_TIMEOUT_MS ∧
    (List.lookup 1 (detectClaudeStates [1]
        (Option.some [⟨2, 1, 0, 0, [], "claude".data⟩]) 30000
        [(1, ⟨ClaudeState.approval, 0⟩)]).1).map (fun x => x.state)
      = Option.some ClaudeState.approval ∧
    List.lookup 1 (detectClaudeStates [1]
        (Option.some [⟨2, 1, 0, 0, [], "claude".data⟩]) 30000
        [(1, ⟨ClaudeState.approval, 0⟩)]).2
      = Option.some ⟨ClaudeState.approval, 0⟩ ∧
    ClaudeState.approval ≠ ClaudeState.idle := by decide

/-- C1 (amended): for every root of a tick (the other requested roots being
arbitrary) with a matched descendant at CPU not above the generating
threshold and previous memory {APPROVAL, since}: when now − since STRICTLY
exceeds the approval timeout the tick yields IDLE with memory {IDLE, now};
otherwise it yields APPROVAL with the memory entry unchanged (the since
timestamp is not re-armed). -/
theorem approval_timeout_strict (ps : List ProcessInfo) (l1 l2 : List Nat)
    (r now since : Nat) (prev : List (Nat × Mem)) (proc : ProcessInfo)
    (hl1 : r ∉ l1) (hl2 : r ∉ l2)
    (hfind : findDesc (childrenOfPs ps) (procOfPs ps) (ps.length + 1) r = Option.some proc)
    (hcpu : ¬ proc.cpu > CPU_GENERATING_THRESHOLD)
    (hprev : List.lookup r prev = Option.some ⟨ClaudeState.approval, since⟩) :
    (now - since > APPROVAL_TIMEOUT_MS →
      (List.lookup r (detectClaudeStates (l1 ++ r :: l2) (Option.some ps) now prev).1).map
          (fun x => x.state) = Option.some ClaudeState.idle ∧
      List.lookup r (detectClaudeStates (l1 ++ r :: l2) (Option.some ps) now prev).2
        = Option.some ⟨ClaudeState.idle, now⟩) ∧
    (now - since ≤ APPROVAL_TIMEOUT_MS →
      (List.lookup r (detectClaudeStates (l1 ++ r :: l2) (Option.some ps) now prev).1).map
          (fun x => x.state) = Option.some ClaudeState.approval ∧
      List.lookup r (detectClaudeStates (l1 ++ r :: l2) (Option.some ps) now prev).2
        = Option.some ⟨ClaudeState.approval, since⟩) := by
  obtain ⟨e1, e2⟩ := detect_multi_root_eq_single ps now prev l1 l2 r hl1 hl2
  have hd : detectClaudeStates [r] (Option.some ps) now prev
      = detectStep ps now ([], prev) r := rfl
  constructor
  · intro hgt
    rw [e1, e2, hd]
    simp only [detectStep, hfind]
    simp [stepRoot, hcpu, hprev, hgt, lookup_setA_self]
  · intro hle
    rw [e1, e2, hd]
    simp only [detectStep, hfind]
    simp [stepRoot, hcpu, hprev, Nat.not_lt.mpr hle, lookup_setA_self]

/-- C1 witness: memory {APPROVAL, 0} for root 1 of a two-root tick; a tick at
40000 (past the timeout) decays to IDLE re-arming the memory, a tick at
10000 stays APPROVAL with the memory entry untouched. -/
theorem approval_timeout_strict_witness :
    ((List.lookup 1 (detectClaudeStates [1, 9]
        (Option.some [⟨2, 1, 0, 0, [], "claude".data⟩]) 40000
        [(1, ⟨ClaudeState.approval, 0⟩)]).1).map (fun x => x.state)
      = Option.some ClaudeState.idle ∧
     List.lookup 1 (detectClaudeStates [1, 9]
        (Option.some [⟨2, 1, 0, 0, [], "claude".data⟩]) 40000
        [(1, ⟨ClaudeState.approval, 0⟩)]).2
      = Option.some ⟨ClaudeState.idle, 40000⟩) ∧
    ((List.lookup 1 (detectClaudeStates [1, 9]
        (Option.some [⟨2, 1, 0, 0, [], "claude".data⟩]) 10000
        [(1, ⟨ClaudeState.approval, 0⟩)]).1).map (fun x => x.state)
      = Option.some ClaudeState.approval ∧
     List.lookup 1 (detectClaudeStates [1, 9]
        (Option.some [⟨2, 1, 0, 0, [], "claude".data⟩]) 10000
        [(1, ⟨ClaudeState.approval, 0⟩)]).2
      = Option.some ⟨ClaudeState.approval, 0⟩) :=
  ⟨(approval_timeout_strict [⟨2, 1, 0, 0, [], "claude".data⟩] [] [9] 1 40000 0
      [(1, ⟨ClaudeState.approval, 0⟩)] ⟨2, 1, 0, 0, [], "claude".data⟩
      (by decide) (by decide) (by decide) (by decide) (by decide)).1 (by decide),
   (approval_timeout_strict [⟨2, 1, 0, 0, [], "claude".data⟩] [] [9] 1 10000 0
      [(1, ⟨ClaudeState.approval, 0⟩)] ⟨2, 1, 0, 0, [], "claude".data⟩
      (by decide) (by decide) (by decide) (by decide) (by decide)).2 (by decide)⟩

-- ── C2: generating threshold and the drop-to-approval heuristic ──

/-- C2: for every root of a tick with a matched descendant: CPU strictly
above the generating threshold yields GENERATING with memory
{GENERATING, now}; otherwise, a previous memory state GENERATING yields
APPROVAL with memory {APPROVAL, now}. -/
theorem generating_then_drop (ps : List ProcessInfo) (l1 l2 : List Nat)
    (r now : Nat) (prev : List (Nat × Mem)) (proc : ProcessInfo)
    (hl1 : r ∉ l1) (hl2 : r ∉ l2)
    (hfind : findDesc (childrenOfPs ps) (procOfPs ps) (ps.length + 1) r = Option.some proc) :
    (proc.cpu > CPU_GENERATING_THRESHOLD →
      (List.lookup r (detectClaudeStates (l1 ++ r :: l2) (Option.some ps) now prev).1).map
          (fun x => x.state) = Option.some ClaudeState.generating ∧
      List.lookup r (detectClaudeStates (l1 ++ r :: l2) (Option.some ps) now prev).2
        = Option.some ⟨ClaudeState.generating, now⟩) ∧
    (¬ proc.cpu > CPU_GENERATING_THRESHOLD →
      ∀ s, List.lookup r prev = Option.some ⟨ClaudeState.generating, s⟩ →
        (List.lookup r (detectClaudeStates (l1 ++ r :: l2) (Option.some ps) now prev).1).map
            (fun x => x.state) = Option.some ClaudeState.approval ∧
        List.lookup r (detectClaudeStates (l1 ++ r :: l2) (Option.some ps) now prev).2
          = Option.some ⟨ClaudeState.approval, now⟩) := by
  obtain ⟨e1, e2⟩ := detect_multi_root_eq_single ps now prev l1 l2 r hl1 hl2
  have hd : detectClaudeStates [r] (Option.some ps) now prev
      = detectStep ps now ([], prev) r := rfl
  constructor
  · intro hcpu
    rw [e1, e2, hd]
    simp only [detectStep, hfind]
    simp [stepRoot, hcpu, lookup_setA_self]
  · intro hcpu s hprev
    rw [e1, e2, hd]
    simp only [detectStep, hfind]
    simp [stepRoot, hcpu, hprev, lookup_setA_self]

/-- C2 witness: a 50% CPU descendant classifies GENERATING; on the next tick
with CPU 0 and memory {GENERATING, 5} it classifies APPROVAL re-arming the
memory to the tick time. -/
theorem generating_then_drop_witness :
    ((List.lookup 1 (detectClaudeStates [1, 9]
        (Option.some [⟨2, 1, 50, 0, [], "claude".data⟩]) 5 []).1).map
          (fun x => x.state) = Option.some ClaudeState.generating ∧
     List.lookup 1 (detectClaudeStates [1, 9]
        (Option.some [⟨2, 1, 50, 0, [], "claude".data⟩]) 5 []).2
      = Option.some ⟨ClaudeState.generating, 5⟩) ∧
    ((List.lookup 1 (detectClaudeStates [1, 9]
        (Option.some [⟨2, 1, 0, 0, [], "claude".data⟩]) 6
        [(1, ⟨ClaudeState.generating, 5⟩)]).1).map
          (fun x => x.state) = Option.some ClaudeState.approval ∧
     List.lookup 1 (detectClaudeStates [1, 9]
        (Option.some [⟨2, 1, 0, 0, [], "claude".data⟩]) 6
        [(1, ⟨ClaudeState.generating, 5⟩)]).2
      = Option.some ⟨ClaudeState.approval, 6⟩) :=
  ⟨(generating_then_drop [⟨2, 1, 50, 0, [], "claude".data⟩] [] [9] 1 5 []
      ⟨2, 1, 50, 0, [], "claude".data⟩ (by decide) (by decide) (by decide)).1
      (by decide),
   (generating_then_drop [⟨2, 1, 0, 0, [], "claude".data⟩] [] [9] 1 6
      [(1, ⟨ClaudeState.generating, 5⟩)] ⟨2, 1, 0, 0, [], "claude".data⟩
      (by decide) (by decide) (by decide)).2 (by decide) 5 (by decide)⟩

-- ── C4: order of the descendant walk ─────────────────────────────

/-- C4 counterexample: in the snapshot with samples 2←1 "sh", 3←1 "claude",
4←2 "claude", the breadth-first level-order search the claim describes
returns the depth-1 descendant pid 3, while the classifier walk — and hence
the diagnostics of the tick — returns the deeper pid 4, the first match in
depth-first preorder. -/
theorem descendant_walk_counterexample :
    (findDesc
        (childrenOfPs [⟨2, 1, 0, 0, [], "sh".data⟩, ⟨3, 1, 0, 0, [], "claude".data⟩,
          ⟨4, 2, 0, 0, [], "claude".data⟩])
        (procOfPs [⟨2, 1, 0, 0, [], "sh".data⟩, ⟨3, 1, 0, 0, [], "claude".data⟩,
          ⟨4, 2, 0, 0, [], "claude".data⟩]) 4 1).map (fun p => p.pid)
      = Option.some 4 ∧
    (bfsFirstMatch
        (childrenOfPs [⟨2, 1, 0, 0, [], "sh".data⟩, ⟨3, 1, 0, 0, [], "claude".data⟩,
          ⟨4, 2, 0, 0, [], "claude".data⟩])
        (procOfPs [⟨2, 1, 0, 0, [], "sh".data⟩, ⟨3, 1, 0, 0, [], "claude".data⟩,
          ⟨4, 2, 0, 0, [], "claude".data⟩]) 4
        (childrenOfPs [⟨2, 1, 0, 0, [], "sh".data⟩, ⟨3, 1, 0, 0, [], "claude".data⟩,
          ⟨4, 2, 0, 0, [], "claude".data⟩] 1)).map (fun p => p.pid)
      = Option.some 3 ∧
    ((List.lookup 1 (detectClaudeStates [1]
        (Option.some [⟨2, 1, 0, 0, [], "sh".data⟩, ⟨3, 1, 0, 0, [], "claude".data⟩,
          ⟨4, 2, 0, 0, [], "claude".data⟩]) 0 []).1).bind
        (fun rr => rr.info.map (fun i => i.pid))) = Option.some 4 ∧
    (4 : Nat) ≠ 3 := by decide

theorem firstMatchIn_append (procOf : Nat → Option ProcessInfo)
    (l1 l2 : List Nat) :
    firstMatchIn procOf (l1 ++ l2)
      = match firstMatchIn procOf l1 with
        | Option.some p => Option.some p
        | Option.none => firstMatchIn procOf l2 := by
  induction l1 with
  | nil => rfl
  | cons c rest ih =>
    simp only [List.cons_append, firstMatchIn]
    cases hp : procOf c with
    | none => simpa using ih
    | some p =>
      by_cases hc : isClaudeProcess p.command
      · simp [hc]
      · simpa [hc] using ih

theorem findDescList_eq_first_dfs (children : Nat → List Nat)
    (procOf : Nat → Option ProcessInfo) (fuel : Nat)
    (ih : ∀ pid, findDesc children procOf fuel pid
          = firstMatchIn procOf (dfsOrder children fuel pid)) :
    ∀ l, findDescList (findDesc children procOf fuel) procOf l
      = firstMatchIn procOf (dfsOrderList (dfsOrder children fuel) l) := by
  intro l
  induction l with
  | nil => rfl
  | cons c rest ihl =>
    simp only [findDescList, dfsOrderList, firstMatchIn]
    cases hp : procOf c with
    | none =>
      rw [firstMatchIn_append, ih c]
      cases firstMatchIn procOf (dfsOrder children fuel c) <;> simp [ihl]
    | some p =>
      by_cases hc : isClaudeProcess p.command
      · simp [hc]
      · simp only [hc, if_false]
        rw [firstMatchIn_append, ih c]
        cases firstMatchIn procOf (dfsOrder children fuel c) <;> simp [ihl]

/-- C4 (amended): the classifier locates the matched descendant by the
recursive walk of findClaudeDescendant, which visits the strict descendants
of the root in depth-first preorder; among all descendants whose command
line matches the signature, the one returned is the first in that
depth-first preorder — not breadth-first level order. -/
theorem findDesc_first_in_dfs_preorder (children : Nat → List Nat)
    (procOf : Nat → Option ProcessInfo) :
    ∀ (fuel pid : Nat),
      findDesc children procOf fuel pid
        = firstMatchIn procOf (dfsOrder children fuel pid) := by
  intro fuel
  induction fuel with
  | zero => intro pid; rfl
  | succ f ih =>
    intro pid
    exact findDescList_eq_first_dfs children procOf f ih (children pid)

-- ── C3: the monitored-process matching predicate ─────────────────

/-- C3 counterexample: the command line "claude ls" has the program name as
its leading token (and references no configuration directory), yet the
predicate rejects it, because the search/listing-tool rejection also fires
on an accepted-shape command — so the claim's unconditional acceptance
clause is false. -/
theorem claude_match_counterexample :
    ("claude ls".data.take 7 = "claude ".data) ∧
    claudeTokenOccurs ("claude ls".data.map Char.toLower) = true ∧
    containsSub dotClaudeSlash ("claude ls".data.map Char.toLower) = false ∧
    isClaudeProcess ("claude ls".data) = false := by decide

/-- C3 (amended): the predicate rejects every command line that references
the program's configuration directory (any ".claude/" occurrence, case
folded) and every command line containing a search/listing tool word (grep,
rg, ag, find, ls, cat, head, tail as whole words); on all remaining command
lines it accepts exactly those where the program name appears as the leading
token or as a final path segment followed by whitespace or end of line —
the two rejections take precedence over that acceptance shape. The
shell-snapshot example never matches, "claude --dangerously-skip-permissions"
matches, and the diagnostic safety-skip flag is the presence of that switch
in the matched command line. -/
theorem claude_match_characterization :
    (∀ cmd, containsSub dotClaudeSlash (cmd.map Char.toLower) = true →
      isClaudeProcess cmd = false) ∧
    (∀ cmd, (searchToolWords.any (fun w => wordOccurs w (cmd.map Char.toLower))) = true →
      isClaudeProcess cmd = false) ∧
    (∀ cmd, containsSub dotClaudeSlash (cmd.map Char.toLower) = false →
      (searchToolWords.any (fun w => wordOccurs w (cmd.map Char.toLower))) = false →
      isClaudeProcess cmd = claudeTokenOccurs (cmd.map Char.toLower)) ∧
    isClaudeProcess ("/bin/zsh /home/u/.claude/shell-snapshots/snap.sh".data) = false ∧
    isClaudeProcess ("claude --dangerously-skip-permissions".data) = true ∧
    skipPermissionsFlag ("claude --dangerously-skip-permissions".data) = true ∧
    (∀ proc children procOf fuel,
      (buildInfo proc children procOf fuel).skipPermissions
        = skipPermissionsFlag proc.command) := by
  refine ⟨?_, ?_, ?_, by decide, by decide, by decide, ?_⟩
  · intro cmd h
    simp [isClaudeProcess, h]
  · intro cmd h
    simp [isClaudeProcess, h]
  · intro cmd h1 h2
    simp [isClaudeProcess, h1, h2]
  · intro proc children procOf fuel
    rfl

/-- C3 witness: the three conditional clauses applied at a config-directory
reference, a grep invocation, and a plain path-launched invocation. -/
theorem claude_match_characterization_witness :
    isClaudeProcess (".claude/shell-snapshots/run.sh".data) = false ∧
    isClaudeProcess ("grep claude".data) = false ∧
    isClaudeProcess ("node /opt/claude --resume".data) = true :=
  ⟨claude_match_characterization.1 (".claude/shell-snapshots/run.sh".data) (by decide),
   claude_match_characterization.2.1 ("grep claude".data) (by decide),
   (claude_match_characterization.2.2.1 ("node /opt/claude --resume".data)
      (by decide) (by decide)).trans (by decide)⟩

-- ── C10: setDisplayName with an unknown id is a no-op ────────────

/-- C10: setDisplayName called with an id matching no local record is a
complete no-op: the records are returned unchanged, nothing is persisted to
the shared store, and no change notification fires. -/
theorem setDisplayName_unknown_id_noop (recordId : String) (d : Option String)
    (records : List (Nat × ActivityRecord))
    (h : ∀ e ∈ records, e.2.id ≠ recordId) :
    setDisplayNameFn recordId d records = ⟨records, false, false⟩ := by
  induction records with
  | nil => rfl
  | cons e rest ih =>
    obtain ⟨k, r⟩ := e
    have hr : r.id ≠ recordId := h (k, r) (List.mem_cons_self _ _)
    have hb : (r.id == recordId) = false := by simpa using hr
    simp only [setDisplayNameFn, hb, Bool.false_eq_true, if_false]
    rw [ih (fun e he => h e (List.mem_cons_of_mem _ he))]

/-- C10 witness: a one-record store whose id differs from the requested id. -/
theorem setDisplayName_unknown_id_noop_witness :
    setDisplayNameFn "w:9" (Option.some "new")
        [(0, ⟨"w:0", "t1", Option.none, Option.none, Option.none, 1, 1, "w", "W",
              true, Option.none, Option.none⟩)]
      = ⟨[(0, ⟨"w:0", "t1", Option.none, Option.none, Option.none, 1, 1, "w", "W",
              true, Option.none, Option.none⟩)], false, false⟩ :=
  setDisplayName_unknown_id_noop "w:9" (Option.some "new") _ (by decide)

-- ── C5: name-based correlation with persisted state on register ──

theorem findPersistedMatch_some_spec :
    ∀ (l : List PersistedTerminal) (name : String) (p : PersistedTerminal)
      (rest : List PersistedTerminal),
      findPersistedMatch name l = (Option.some p, rest) →
      ∃ l1 l2, l = l1 ++ p :: l2 ∧ rest = l1 ++ l2 ∧ p.name = name ∧
        ∀ q ∈ l1, q.name ≠ name := by
  intro l
  induction l with
  | nil =>
    intro name p rest h
    simp [findPersistedMatch] at h
  | cons t ts ih =>
    intro name p rest h
    by_cases ht : t.name = name
    · have hb : (t.name == name) = true := by simpa using ht
      simp only [findPersistedMatch, hb, if_true] at h
      rw [Prod.mk.injEq, Option.some.injEq] at h
      obtain ⟨hp, hrest⟩ := h
      subst hp
      subst hrest
      exact ⟨[], ts, rfl, rfl, ht, by simp⟩
    · have hb : (t.name == name) = false := by simpa using ht
      simp only [findPersistedMatch, hb, Bool.false_eq_true, if_false] at h
      rw [Prod.mk.injEq] at h
      obtain ⟨h1, h2⟩ := h
      have heq : findPersistedMatch name ts
          = (Option.some p, (findPersistedMatch name ts).2) := by
        rw [← h1]
      obtain ⟨l1, l2, hl, hr2, hn, hall⟩ := ih name p _ heq
      refine ⟨t :: l1, l2, ?_, ?_, hn, ?_⟩
      · simp [hl]
      · rw [← h2, hr2]
        rfl
      · intro q hq
        rcases List.mem_cons.mp hq with h3 | h3
        · subst h3
          exact ht
        · exact hall q h3

theorem findPersistedMatch_no_match :
    ∀ (l : List PersistedTerminal) (name : String),
      (∀ q ∈ l, q.name ≠ name) → findPersistedMatch name l = (Option.none, l) := by
  intro l
  induction l with
  | nil =>
    intro name _
    rfl
  | cons t ts ih =>
    intro name h
    have hb : (t.name == name) = false := by
      simpa using h t (List.mem_cons_self _ _)
    simp only [findPersistedMatch, hb, Bool.false_eq_true, if_false]
    rw [ih name (fun q hq => h q (List.mem_cons_of_mem _ hq))]

/-- C5: registering a handle whose raw name equals that of a not-yet-consumed
persisted record correlates with the first positional such record, consumes
it (the record is removed from the unconsumed list), and restores its
displayName, custom flag, lastActivity and createdAt; a handle whose raw
name matches no unconsumed persisted record is seeded with fresh defaults —
the current time and no display name — and consumes nothing. -/
theorem register_persisted_correlation (h : Nat) (name : String) (now : Nat)
    (st : TrackerState) :
    (∀ p rest, findPersistedMatch name st.persisted = (Option.some p, rest) →
      (∃ l1 l2, st.persisted = l1 ++ p :: l2 ∧ rest = l1 ++ l2 ∧ p.name = name ∧
        ∀ q ∈ l1, q.name ≠ name) ∧
      (registerTerminal h name now st).persisted = rest ∧
      ∃ r, recordOfHandle (registerTerminal h name now st) h = Option.some r ∧
        r.name = name ∧ r.displayName = p.displayName ∧
        r.displayNameIsCustom = p.displayNameIsCustom ∧
        r.lastActivity = p.lastActivity ∧ r.createdAt = p.createdAt) ∧
    ((∀ q ∈ st.persisted, q.name ≠ name) →
      (registerTerminal h name now st).persisted = st.persisted ∧
      ∃ r, recordOfHandle (registerTerminal h name now st) h = Option.some r ∧
        r.name = name ∧ r.displayName = Option.none ∧
        r.displayNameIsCustom = Option.none ∧
        r.lastActivity = now ∧ r.createdAt = now) := by
  constructor
  · intro p rest hm
    refine ⟨findPersistedMatch_some_spec st.persisted name p rest hm, ?_, ?_⟩
    · simp [registerTerminal, hm]
    · have hrec : recordOfHandle (registerTerminal h name now st) h
          = Option.some ⟨st.windowId ++ ":" ++ toString st.creationIndex, name,
              p.displayName, p.displayNameIsCustom, Option.none, p.lastActivity,
              p.createdAt, st.windowId, st.windowName, true, Option.none,
              Option.none⟩ := by
        simp [recordOfHandle, registerTerminal, hm, lookup_setA_self]
      exact ⟨_, hrec, rfl, rfl, rfl, rfl, rfl⟩
  · intro hnone
    have hm := findPersistedMatch_no_match st.persisted name hnone
    constructor
    · simp [registerTerminal, hm]
    · have hrec : recordOfHandle (registerTerminal h name now st) h
          = Option.some ⟨st.windowId ++ ":" ++ toString st.creationIndex, name,
              Option.none, Option.none, Option.none, now, now, st.windowId,
              st.windowName, true, Option.none, Option.none⟩ := by
        simp [recordOfHandle, registerTerminal, hm, lookup_setA_self]
      exact ⟨_, hrec, rfl, rfl, rfl, rfl, rfl⟩

/-- C5 witness: a register under raw name "build" consumes the single
matching persisted record and restores its fields; a register under raw name
"fresh" against a non-matching persisted list correlates with nothing and is
seeded from the clock. -/
theorem register_persisted_correlation_witness :
    ((∃ l1 l2,
        [(⟨"w:0", "build", Option.some "DN", Option.some true, Option.none,
           11, 7, "w", "W"⟩ : PersistedTerminal)]
          = l1 ++ (⟨"w:0", "build", Option.some "DN", Option.some true,
              Option.none, 11, 7, "w", "W"⟩ : PersistedTerminal) :: l2 ∧
        ([] : List PersistedTerminal) = l1 ++ l2 ∧
        (⟨"w:0", "build", Option.some "DN", Option.some true, Option.none,
          11, 7, "w", "W"⟩ : PersistedTerminal).name = "build" ∧
        ∀ q ∈ l1, q.name ≠ "build") ∧
      (registerTerminal 3 "build" 99
        ⟨[], 0, [], [⟨"w:0", "build", Option.some "DN", Option.some true,
            Option.none, 11, 7, "w", "W"⟩], "w", "W"⟩).persisted = [] ∧
      ∃ r, recordOfHandle (registerTerminal 3 "build" 99
          ⟨[], 0, [], [⟨"w:0", "build", Option.some "DN", Option.some true,
              Option.none, 11, 7, "w", "W"⟩], "w", "W"⟩) 3 = Option.some r ∧
        r.name = "build" ∧ r.displayName = Option.some "DN" ∧
        r.displayNameIsCustom = Option.some true ∧
        r.lastActivity = 11 ∧ r.createdAt = 7) ∧
    ((registerTerminal 3 "fresh" 99
        ⟨[], 0, [], [⟨"w:0", "other", Option.none, Option.none, Option.none,
            11, 7, "w", "W"⟩], "w", "W"⟩).persisted
      = [⟨"w:0", "other", Option.none, Option.none, Option.none, 11, 7, "w", "W"⟩] ∧
     ∃ r, recordOfHandle (registerTerminal 3 "fresh" 99
          ⟨[], 0, [], [⟨"w:0", "other", Option.none, Option.none, Option.none,
              11, 7, "w", "W"⟩], "w", "W"⟩) 3 = Option.some r ∧
       r.name = "fresh" ∧ r.displayName = Option.none ∧
       r.displayNameIsCustom = Option.none ∧
       r.lastActivity = 99 ∧ r.createdAt = 99) :=
  ⟨(register_persisted_correlation 3 "build" 99
      ⟨[], 0, [], [⟨"w:0", "build", Option.some "DN", Option.some true,
          Option.none, 11, 7, "w", "W"⟩], "w", "W"⟩).1
      ⟨"w:0", "build", Option.some "DN", Option.some true, Option.none,
        11, 7, "w", "W"⟩ [] (by decide),
   (register_persisted_correlation 3 "fresh" 99
      ⟨[], 0, [], [⟨"w:0", "other", Option.none, Option.none, Option.none,
          11, 7, "w", "W"⟩], "w", "W"⟩).2 (by decide)⟩

-- ── C9: lastActivity never decreases between successive touches ──

theorem touch_sets_lastActivity (st : TrackerState) (h : Nat) (name : String)
    (t : Nat) (r : ActivityRecord)
    (hr : recordOfHandle (touchTerminal h name t st) h = Option.some r) :
    r.lastActivity = t := by
  unfold touchTerminal at hr
  cases hidx : List.lookup h st.terminalIndexMap with
  | none =>
    rw [hidx] at hr
    unfold recordOfHandle at hr
    rw [hidx] at hr
    simp at hr
  | some idx =>
    simp only [hidx] at hr
    cases hrec : List.lookup idx st.records with
    | none =>
      simp only [hrec] at hr
      unfold recordOfHandle at hr
      rw [hidx] at hr
      simp [hrec] at hr
    | some r0 =>
      simp only [hrec] at hr
      unfold recordOfHandle at hr
      simp only [hidx, Option.some_bind] at hr
      rw [lookup_setA_self] at hr
      rw [Option.some.injEq] at hr
      rw [← hr]

theorem runOps_take_succ (st : TrackerState) (ops : List TrackerOp) (i : Nat)
    (op : TrackerOp) (hop : ops.get? i = Option.some op) :
    runOps st (ops.take (i + 1)) = applyOp (runOps st (ops.take i)) op := by
  rw [runOps, List.take_succ, List.foldl_append, ← List.get?_eq_getElem?, hop]
  rfl

theorem timesMonotone_pair (ops : List TrackerOp) (hm : timesMonotone ops)
    (i j t1 t2 : Nat) (o1 o2 : TrackerOp) (hij : i ≤ j)
    (hoi : ops.get? i = Option.some o1) (hoj : ops.get? j = Option.some o2)
    (ht1 : opTime o1 = Option.some t1) (ht2 : opTime o2 = Option.some t2) :
    t1 ≤ t2 := by
  have hi : i < ops.length := (List.get?_eq_some.mp hoi).1
  have hj : j < ops.length := (List.get?_eq_some.mp hoj).1
  have hd1 : ops.getD i (TrackerOp.unregister 0) = o1 := by
    rw [List.getD_eq_getElem?_getD, ← List.get?_eq_getElem?, hoi]
    rfl
  have hd2 : ops.getD j (TrackerOp.unregister 0) = o2 := by
    rw [List.getD_eq_getElem?_getD, ← List.get?_eq_getElem?, hoj]
    rfl
  have := hm i hi j hj hij
  rw [hd1, hd2, ht1, ht2] at this
  simpa [timeLeB] using this

/-- C9: along any trace of register/touch/unregister/setDisplayName
operations whose clock is monotone, the lastActivity of the entity behind a
handle never decreases between two successive touches of that handle: the
value observed right after the earlier touch is at most the value observed
right after the later one. -/
theorem lastActivity_monotone_between_touches (st : TrackerState)
    (ops : List TrackerOp) (i j : Nat) (n1 n2 : String) (t1 t2 : Nat)
    (hnd : Nat) (r1 r2 : ActivityRecord)
    (hm : timesMonotone ops) (hij : i < j)
    (hoi : ops.get? i = Option.some (TrackerOp.touch hnd n1 t1))
    (hoj : ops.get? j = Option.some (TrackerOp.touch hnd n2 t2))
    (hr1 : recordOfHandle (runOps st (ops.take (i + 1))) hnd = Option.some r1)
    (hr2 : recordOfHandle (runOps st (ops.take (j + 1))) hnd = Option.some r2) :
    r1.lastActivity ≤ r2.lastActivity := by
  rw [runOps_take_succ st ops i _ hoi] at hr1
  rw [runOps_take_succ st ops j _ hoj] at hr2
  have e1 : r1.lastActivity = t1 :=
    touch_sets_lastActivity (runOps st (ops.take i)) hnd n1 t1 r1 hr1
  have e2 : r2.lastActivity = t2 :=
    touch_sets_lastActivity (runOps st (ops.take j)) hnd n2 t2 r2 hr2
  rw [e1, e2]
  exact timesMonotone_pair ops hm i j t1 t2 _ _ (Nat.le_of_lt hij) hoi hoj rfl rfl

/-- C9 witness: two touches of handle 5 at clock values 1 and then 2. -/
theorem lastActivity_monotone_between_touches_witness :
    timesMonotone [TrackerOp.touch 5 "a" 1, TrackerOp.touch 5 "a" 2] ∧
    recordOfHandle (runOps
        ⟨[(0, ⟨"w:0", "t", Option.none, Option.none, Option.none, 0, 0, "w", "W",
              true, Option.none, Option.none⟩)], 1, [(5, 0)], [], "w", "W"⟩
        ([TrackerOp.touch 5 "a" 1, TrackerOp.touch 5 "a" 2].take 1)) 5
      = Option.some ⟨"w:0", "a", Option.none, Option.none, Option.none, 1, 0,
          "w", "W", true, Option.none, Option.none⟩ ∧
    recordOfHandle (runOps
        ⟨[(0, ⟨"w:0", "t", Option.none, Option.none, Option.none, 0, 0, "w", "W",
              true, Option.none, Option.none⟩)], 1, [(5, 0)], [], "w", "W"⟩
        ([TrackerOp.touch 5 "a" 1, TrackerOp.touch 5 "a" 2].take 2)) 5
      = Option.some ⟨"w:0", "a", Option.none, Option.none, Option.none, 2, 0,
          "w", "W", true, Option.none, Option.none⟩ ∧
    (⟨"w:0", "a", Option.none, Option.none, Option.none, 1, 0, "w", "W", true,
        Option.none, Option.none⟩ : ActivityRecord).lastActivity ≤
      (⟨"w:0", "a", Option.none, Option.none, Option.none, 2, 0, "w", "W", true,
        Option.none, Option.none⟩ : ActivityRecord).lastActivity :=
  ⟨by decide, by decide, by decide,
   lastActivity_monotone_between_touches
     ⟨[(0, ⟨"w:0", "t", Option.none, Option.none, Option.none, 0, 0, "w", "W",
           true, Option.none, Option.none⟩)], 1, [(5, 0)], [], "w", "W"⟩
     [TrackerOp.touch 5 "a" 1, TrackerOp.touch 5 "a" 2] 0 1 "a" "a" 1 2 5
     ⟨"w:0", "a", Option.none, Option.none, Option.none, 1, 0, "w", "W", true,
       Option.none, Option.none⟩
     ⟨"w:0", "a", Option.none, Option.none, Option.none, 2, 0, "w", "W", true,
       Option.none, Option.none⟩
     (by decide) (by decide) (by decide) (by decide) (by decide) (by decide)⟩

-- ── C7: purge of stale owner snapshots on a synchronizer tick ────

/-- C7 counterexample: a foreign OwnerSnapshot whose age equals the
staleness threshold exactly (age ≥ threshold as claimed) survives the tick
and its entity still appears in the merged remote view — the code purges
only snapshots STRICTLY older than the threshold. -/
theorem stale_snapshot_boundary_counterexample :
    (60000 : Nat) - 0 ≥ STALE_WINDOW_THRESHOLD_MS ∧
    (pollOnce "w1" 60000
        [("activity:w2", ⟨"w2", "W2", 0,
          [⟨"r:0", "t", Option.none, Option.none, Option.none, 1, 1, "w2", "W2"⟩]⟩)]
        []).1
      = [("activity:w2", ⟨"w2", "W2", 0,
          [⟨"r:0", "t", Option.none, Option.none, Option.none, 1, 1, "w2", "W2"⟩]⟩)] ∧
    ((pollOnce "w1" 60000
        [("activity:w2", ⟨"w2", "W2", 0,
          [⟨"r:0", "t", Option.none, Option.none, Option.none, 1, 1, "w2", "W2"⟩]⟩)]
        []).2.1).map (fun r => r.id) = ["r:0"] := by decide

theorem pollLoop_characterization (selfId : String) (now : Nat) :
    ∀ store, pollLoop selfId now store
      = (store.filter (pollKeep selfId now),
         (store.filter (pollLive selfId now)).flatMap
           (fun e => e.2.terminals.map toRemoteRecord)) := by
  intro store
  induction store with
  | nil => rfl
  | cons e rest ih =>
    obtain ⟨k, s⟩ := e
    by_cases h1 : strStarts activityKeyHead k
    · by_cases h2 : s.windowId = selfId
      · simp [pollLoop, pollKeep, pollLive, h1, h2, ih, List.filter_cons]
      · by_cases h3 : now - s.lastUpdated > STALE_WINDOW_THRESHOLD_MS
        · simp [pollLoop, pollKeep, pollLive, h1, h2, h3, Nat.not_le.mpr h3, ih,
            List.filter_cons]
        · simp [pollLoop, pollKeep, pollLive, h1, h2, h3, Nat.not_lt.mp h3, ih,
            List.filter_cons]
    · simp [pollLoop, pollKeep, pollLive, h1, ih, List.filter_cons]

/-- C7 (amended): on every synchronizer tick, the store afterwards consists
exactly of the entries that are outside the activity namespace, or the
reader's own, or not STRICTLY older than the staleness threshold, and the
merged remote view is exactly the flattened terminal lists of the remaining
foreign snapshots, tagged non-local; a foreign snapshot strictly older than
the threshold fails both retention tests, so it is gone from the store and
contributes nothing to the view after the one tick that observes it; and
deleting an already-deleted key is a no-op, so racing readers are safe. -/
theorem poll_stale_purge :
    (∀ selfId now store prevRemote,
      (pollOnce selfId now store prevRemote).1 = store.filter (pollKeep selfId now) ∧
      (pollOnce selfId now store prevRemote).2.1
        = (store.filter (pollLive selfId now)).flatMap
            (fun e => e.2.terminals.map toRemoteRecord)) ∧
    (∀ k store, deleteKey k (deleteKey k store) = deleteKey k store) ∧
    (∀ selfId now store prevRemote k s,
      strStarts activityKeyHead k = true → s.windowId ≠ selfId →
      now - s.lastUpdated > STALE_WINDOW_THRESHOLD_MS →
      pollKeep selfId now (k, s) = false ∧ pollLive selfId now (k, s) = false ∧
      (k, s) ∉ (pollOnce selfId now store prevRemote).1) := by
  refine ⟨?_, ?_, ?_⟩
  · intro selfId now store prevRemote
    exact ⟨by simp [pollOnce, pollLoop_characterization],
           by simp [pollOnce, pollLoop_characterization]⟩
  · intro k store
    simp [deleteKey, List.filter_filter]
  · intro selfId now store prevRemote k s h1 h2 h3
    have hkeep : pollKeep selfId now (k, s) = false := by
      simp [pollKeep, h1, h2, h3]
    have hlive : pollLive selfId now (k, s) = false := by
      simp [pollLive, Nat.not_le.mpr h3]
    refine ⟨hkeep, hlive, ?_⟩
    intro hmem
    rw [show (pollOnce selfId now store prevRemote).1
        = store.filter (pollKeep selfId now) from by
          simp [pollOnce, pollLoop_characterization]] at hmem
    have := (List.mem_filter.mp hmem).2
    rw [hkeep] at this
    cases this

/-- C7 witness: a foreign snapshot aged 70000 (strictly past the threshold)
fails both retention tests and is absent from the post-tick store. -/
theorem poll_stale_purge_witness :
    pollKeep "w1" 70000 ("activity:w2", ⟨"w2", "W2", 0,
        [⟨"r:0", "t", Option.none, Option.none, Option.none, 1, 1, "w2", "W2"⟩]⟩)
      = false ∧
    pollLive "w1" 70000 ("activity:w2", ⟨"w2", "W2", 0,
        [⟨"r:0", "t", Option.none, Option.none, Option.none, 1, 1, "w2", "W2"⟩]⟩)
      = false ∧
    ("activity:w2", (⟨"w2", "W2", 0,
        [⟨"r:0", "t", Option.none, Option.none, Option.none, 1, 1, "w2", "W2"⟩]⟩ :
          WindowStateRec)) ∉
      (pollOnce "w1" 70000
        [("activity:w2", ⟨"w2", "W2", 0,
          [⟨"r:0", "t", Option.none, Option.none, Option.none, 1, 1, "w2", "W2"⟩]⟩)]
        []).1 :=
  poll_stale_purge.2.2 "w1" 70000
    [("activity:w2", ⟨"w2", "W2", 0,
      [⟨"r:0", "t", Option.none, Option.none, Option.none, 1, 1, "w2", "W2"⟩]⟩)]
    [] "activity:w2"
    ⟨"w2", "W2", 0, [⟨"r:0", "t", Option.none, Option.none, Option.none, 1, 1, "w2", "W2"⟩]⟩
    (by decide) (by decide) (by decide)

end TAM
